import Mathlib

/-!
Shallow embedding of the hospital records engine from
`Python/Projects/salem/Hospital_System_Management` (core/hospital_system.py,
model/patient.py, model/department.py) together with the shared model classes
`Billing`, `Person`, `Staff`, `Doctor`, `Nurse`
(`Python/Projects/salem/Hospital/model/billing.py`, `person.py`, `staff.py`,
whose constructor signatures are the ones the richer variant calls).

Python dictionaries keyed by room number / department name are embedded as
association lists with first-occurrence update; Python floats (bill amounts,
coverage percents) are embedded as rationals; object mutation becomes explicit
state passing.  The backing JSON file becomes an `Option Doc` component of the
system state (`none` = missing or malformed file).
-/

/-- Billing record (`model/billing.py`): amount, description, paid flag
(default `false`). -/
structure Billing where
  amount : ℚ
  description : String
  paid : Bool := false
deriving Repr, DecidableEq

/-- `Billing.mark_paid`: set the paid flag. -/
def Billing.mark_paid (b : Billing) : Billing :=
  { b with paid := true }

/-- `Billing.get_discounted_amount`: `amount - (percent / 100) * amount`. -/
def Billing.get_discounted_amount (b : Billing) (insurance_coverage_percent : ℚ) : ℚ :=
  b.amount - (insurance_coverage_percent / 100) * b.amount

/-- Next-of-kin record: the `Patient` constructor normalises it to a dict with
keys `name`, `number`, `email`, `relation` (empty strings by default). -/
structure NextOfKin where
  name : String
  number : String
  email : String
  relation : String
deriving Repr, DecidableEq

/-- The default next-of-kin dict used when none is supplied. -/
def defaultNextOfKin : NextOfKin :=
  ⟨"", "", "", ""⟩

/-- Insurance record: the `Patient` constructor normalises it to a dict with
keys `provider`, `policy_number`, `coverage_percent` (default `0`). -/
structure Insurance where
  provider : String
  policy_number : String
  coverage_percent : ℚ
deriving Repr, DecidableEq

/-- The default insurance dict used when none is supplied. -/
def defaultInsurance : Insurance :=
  ⟨"", "", 0⟩

/-- One `procedures` entry: `{date, description, billed}`. -/
structure ProcedureEntry where
  date : String
  description : String
  billed : Bool
deriving Repr, DecidableEq

/-- Patient (`model/patient.py` of the richer variant, fields from
`Person.__init__` plus the patient-specific ones). -/
structure Patient where
  name : String
  age : Int
  phone_number : String
  date_of_birth : String
  gender : String
  email : String
  address : String
  identifier : String
  condition : String
  patient_number : String
  patient_next_of_kin : Option NextOfKin
  room_number : Option Int
  procedures : List ProcedureEntry
  billing : List Billing
  status : String
  register_date : Option String
  discharge_date : Option String
  date_of_death : Option String
  insurance : Insurance
deriving Repr, DecidableEq

/-- `Patient.add_bill`: append a billing record. -/
def Patient.add_bill (p : Patient) (bill : Billing) : Patient :=
  { p with billing := p.billing ++ [bill] }

/-- `Patient.add_procedure`: append `{date, description, billed: False}`. -/
def Patient.add_procedure (p : Patient) (date description : String) : Patient :=
  { p with procedures := p.procedures ++ [⟨date, description, false⟩] }

/-- Set the `billed` flag of the procedure at position `n` (helper for
`mark_procedure_billed`, which has already checked the bound). -/
def setBilledAt : List ProcedureEntry → Nat → List ProcedureEntry
  | [], _ => []
  | proc :: rest, 0 => { proc with billed := true } :: rest
  | proc :: rest, n + 1 => proc :: setBilledAt rest n

/-- `Patient.mark_procedure_billed`: if `0 <= index < len(procedures)`,
set that procedure's `billed` flag; otherwise do nothing. -/
def Patient.mark_procedure_billed (p : Patient) (index : Int) : Patient :=
  if 0 ≤ index ∧ index < (p.procedures.length : Int) then
    { p with procedures := setBilledAt p.procedures index.toNat }
  else
    p

/-- Staff (`Hospital/model/staff.py`): `Staff(name, age, phone_number,
date_of_birth, gender, email, address, identifier, position)` — the
constructor signature the richer variant calls. -/
structure Staff where
  name : String
  age : Int
  phone_number : String
  date_of_birth : String
  gender : String
  email : String
  address : String
  identifier : String
  position : String
deriving Repr, DecidableEq

/-- Doctor: a Staff with `position = 'Doctor'`, a specialty and an assigned
patient list. -/
structure Doctor where
  toStaff : Staff
  specialty : String
  patients : List Patient
deriving Repr, DecidableEq

/-- `Doctor.__init__`: forwards the Person fields, fixes `position='Doctor'`,
stores the specialty and starts with no patients. -/
def Doctor.make (name : String) (age : Int)
    (phone_number date_of_birth gender email address identifier specialty : String) :
    Doctor :=
  ⟨⟨name, age, phone_number, date_of_birth, gender, email, address, identifier, "Doctor"⟩,
    specialty, []⟩

/-- `Doctor.add_patient`: append to the doctor's patient list. -/
def Doctor.add_patient (d : Doctor) (p : Patient) : Doctor :=
  { d with patients := d.patients ++ [p] }

/-- Nurse: a Staff with `position = 'Nurse'` and a department affiliation. -/
structure Nurse where
  toStaff : Staff
  department : Option String
deriving Repr, DecidableEq

/-- `Nurse.__init__`: forwards the Person fields, fixes `position='Nurse'`. -/
def Nurse.make (name : String) (age : Int)
    (phone_number date_of_birth gender email address identifier : String)
    (department : Option String) : Nurse :=
  ⟨⟨name, age, phone_number, date_of_birth, gender, email, address, identifier, "Nurse"⟩,
    department⟩

/-- Department (`model/department.py`): doctors, nurses, combined staff list,
and patients associated with the department. -/
structure Department where
  name : String
  doctors : List Doctor
  nurses : List Nurse
  staff : List Staff
  patients : List Patient
deriving Repr, DecidableEq

/-- `Department.__init__`. -/
def Department.make (name : String) : Department :=
  ⟨name, [], [], [], []⟩

/-- `Department.add_patient`. -/
def Department.add_patient (d : Department) (p : Patient) : Department :=
  { d with patients := d.patients ++ [p] }

/-- `Department.add_staff`. -/
def Department.add_staff (d : Department) (s : Staff) : Department :=
  { d with staff := d.staff ++ [s] }

/-- `Department.add_doctor`: appended to both `doctors` and `staff`. -/
def Department.add_doctor (d : Department) (doc : Doctor) : Department :=
  { d with doctors := d.doctors ++ [doc], staff := d.staff ++ [doc.toStaff] }

/-- `Department.add_nurse`: appended to both `nurses` and `staff`. -/
def Department.add_nurse (d : Department) (n : Nurse) : Department :=
  { d with nurses := d.nurses ++ [n], staff := d.staff ++ [n.toStaff] }

/-! ### The persisted document (`save_data` / `load_data` JSON shape) -/

/-- One staff entry as written by `save_data`:
`{'name', 'age', 'position', 'phone_number', 'date_of_birth', 'gender',
'email', 'address', 'identifier'}`. -/
structure StaffDoc where
  name : String
  age : Int
  position : String
  phone_number : String
  date_of_birth : String
  gender : String
  email : String
  address : String
  identifier : String
deriving Repr, DecidableEq

/-- One department entry as written by `save_data`: the patient names and the
staff dicts. -/
structure DeptDoc where
  patients : List String
  staff : List StaffDoc
deriving Repr, DecidableEq

/-- The whole persisted document: `{'patients': [...], 'departments': {...}}`.
Patient dicts are written by `Patient.to_dict` with every field present, so
they are embedded by the `Patient` record itself. -/
structure Doc where
  patients : List Patient
  departments : List (String × DeptDoc)
deriving Repr, DecidableEq

/-- `Patient.to_dict`: writes every field of the patient. -/
def Patient.to_dict (p : Patient) : Patient := p

/-- `Patient.from_dict` composed with the `Patient` constructor: on a dict
produced by `to_dict` every optional key is present, and the constructor
normalisations (next-of-kin dict, `billed` flags, insurance dict) are
identities on already-normalised values. -/
def Patient.from_dict (p : Patient) : Patient :=
  { p with
    patient_next_of_kin := some (p.patient_next_of_kin.getD defaultNextOfKin),
    procedures := p.procedures.map (fun proc => { proc with billed := proc.billed }),
    insurance :=
      ⟨p.insurance.provider, p.insurance.policy_number, p.insurance.coverage_percent⟩ }

/-! ### The system state -/

/-- `HospitalSystem` state: patient list, room index (dict room → patient
name), department registry (dict name → Department), and the contents of the
backing file (`none` = absent or unparsable). -/
structure HospitalSystem where
  patients : List Patient
  rooms : List (Int × String)
  departments : List (String × Department)
  storedDoc : Option Doc
deriving Repr, DecidableEq

/-- Python dict assignment `d[k] = v` on an association list: overwrite the
first binding of `k` in place, or append a new binding. -/
def dictInsert {α β : Type} [DecidableEq α] : List (α × β) → α → β → List (α × β)
  | [], k, v => [(k, v)]
  | (k0, v0) :: rest, k, v =>
    if k0 = k then (k, v) :: rest else (k0, v0) :: dictInsert rest k v

/-- Python dict lookup on an association list. -/
def dictFind {α β : Type} [DecidableEq α] : List (α × β) → α → Option β
  | [], _ => none
  | (k0, v0) :: rest, k => if k0 = k then some v0 else dictFind rest k

/-- Mutate the first list element satisfying `pred` (the object returned by
`next(p for p in ... if pred(p))`, which the Python code then updates in
place). -/
def updateFirst {α : Type} (pred : α → Bool) (f : α → α) : List α → List α
  | [] => []
  | x :: rest => if pred x then f x :: rest else x :: updateFirst pred f rest

/-- Remove the first list element satisfying `pred` (`list.remove` applied to
the object found by that predicate). -/
def removeFirst {α : Type} (pred : α → Bool) : List α → List α
  | [] => []
  | x :: rest => if pred x then rest else x :: removeFirst pred rest

/-- Python `str.isdigit` on the strings used here: non-empty and all decimal
digits. -/
def pyIsDigit (s : String) : Bool :=
  s.data ≠ [] && s.data.all Char.isDigit

/-- Python `int` on a digit string. -/
def pyStrToNat (s : String) : Nat :=
  s.data.foldl (fun n c => n * 10 + (c.toNat - 48)) 0

/-- Python `max` of a non-empty collection of naturals, embedded as a fold
over the collection list (`0` for the empty list, which `max` never sees). -/
def listMax (l : List Nat) : Nat :=
  l.foldr max 0

namespace HospitalSystem

/-- The integers `generate_patient_number` collects: every digit-only
`patient_number` of an in-memory patient, then every truthy digit-only
`patient_number` from the persisted document's patient list (nothing when the
file is absent or unparsable). -/
def collectedNumbers (s : HospitalSystem) : List Nat :=
  (s.patients.filterMap fun p =>
    if pyIsDigit p.patient_number then some (pyStrToNat p.patient_number) else none)
  ++ (match s.storedDoc with
      | none => []
      | some d =>
        d.patients.filterMap fun p =>
          if p.patient_number ≠ "" ∧ pyIsDigit p.patient_number then
            some (pyStrToNat p.patient_number)
          else none)

/-- `HospitalSystem.generate_patient_number`: `max(numbers) + 1` as a string
when any number was collected, else the baseline `'1001'`. -/
def generate_patient_number (s : HospitalSystem) : String :=
  let numbers := collectedNumbers s
  if numbers ≠ [] then toString (listMax numbers + 1) else "1001"

/-- `save_data`: serialise the full state into the backing file. -/
def saveDoc (s : HospitalSystem) : Doc :=
  { patients := s.patients.map Patient.to_dict,
    departments := s.departments.map fun nd =>
      (nd.1,
        { patients := nd.2.patients.map Patient.name,
          staff := nd.2.staff.map fun st =>
            { name := st.name, age := st.age, position := st.position,
              phone_number := st.phone_number, date_of_birth := st.date_of_birth,
              gender := st.gender, email := st.email, address := st.address,
              identifier := st.identifier } }) }

/-- `save_data` as a state transformer: overwrite the stored document. -/
def save_data (s : HospitalSystem) : HospitalSystem :=
  { s with storedDoc := some (saveDoc s) }

end HospitalSystem

/-- `find_patient` predicate: `p.name == identifier or
str(p.patient_number) == str(identifier)`. -/
def matchesIdentifier (identifier : String) (p : Patient) : Bool :=
  p.name == identifier || p.patient_number == identifier

namespace HospitalSystem

/-- `find_patient`: first patient matching by name or number. -/
def find_patient (s : HospitalSystem) (identifier : String) : Option Patient :=
  s.patients.find? (matchesIdentifier identifier)

/-- The inputs `add_patient` receives from the caller (the menu prompts).
`room_number` is `none` when the room prompt was left blank; `insurance` and
`patient_next_of_kin` are `none` exactly when the caller passed `None`. -/
structure NewPatientInput where
  name : String
  age : Int
  condition : String
  phone_number : String
  date_of_birth : String
  gender : String
  email : String
  address : String
  identifier : String
  patient_next_of_kin : Option NextOfKin
  room_number : Option Int
  insurance : Option Insurance
deriving Repr, DecidableEq

/-- The `Patient` constructor call inside `add_patient`: status starts at
`'normal'`, no procedures, no bills, `register_date` = today, and the
next-of-kin / insurance normalisations of `Patient.__init__`. -/
def mkNewPatient (inp : NewPatientInput) (patient_number register_date : String) : Patient :=
  { name := inp.name, age := inp.age, phone_number := inp.phone_number,
    date_of_birth := inp.date_of_birth, gender := inp.gender, email := inp.email,
    address := inp.address, identifier := inp.identifier, condition := inp.condition,
    patient_number := patient_number,
    patient_next_of_kin := some (inp.patient_next_of_kin.getD defaultNextOfKin),
    room_number := inp.room_number, procedures := [], billing := [],
    status := "normal", register_date := some register_date,
    discharge_date := none, date_of_death := none,
    insurance := inp.insurance.getD defaultInsurance }

/-- `add_patient`: reject a duplicate external identifier, allocate a number,
defensively reject a colliding number, append the patient, index the room when
one was supplied (Python truthiness: room `0` is falsy), and save. -/
def add_patient (s : HospitalSystem) (inp : NewPatientInput) (register_date : String) :
    HospitalSystem :=
  if s.patients.any (fun p => p.identifier == inp.identifier) then s
  else
    let patient_number := s.generate_patient_number
    if s.patients.any (fun p => p.patient_number == patient_number) then s
    else
      let patient := mkNewPatient inp patient_number register_date
      let rooms :=
        match inp.room_number with
        | some r => if r ≠ 0 then dictInsert s.rooms r inp.name else s.rooms
        | none => s.rooms
      save_data { s with patients := s.patients ++ [patient], rooms := rooms }

/-- `assign_room` applied to the patient found by `find_patient`: set the
patient's `room_number`, point the room index entry at the patient's name
(overwriting whatever was there), and save.  No occupancy check is made. -/
def assign_room (s : HospitalSystem) (identifier : String) (room_number : Int) :
    HospitalSystem :=
  match s.find_patient identifier with
  | none => s
  | some p =>
    save_data
      { s with
        patients := updateFirst (matchesIdentifier identifier)
          (fun q => { q with room_number := some room_number }) s.patients,
        rooms := dictInsert s.rooms room_number p.name }

/-- Menu option 4: refuse the room assignment when the found patient is
deceased, otherwise `assign_room`. -/
def menu_assign_room (s : HospitalSystem) (identifier : String) (room_number : Int) :
    HospitalSystem :=
  match s.find_patient identifier with
  | none => s
  | some p => if p.status == "death" then s else s.assign_room identifier room_number

/-- The bill stored by `generate_bill` for one patient: discounted and
annotated when `coverage_percent > 0`, otherwise the raw amount. -/
def generate_bill_patient (p : Patient) (amount : ℚ) (description : String) : Patient :=
  if p.insurance.coverage_percent > 0 then
    let insurance_coverage := p.insurance.coverage_percent
    let discounted_amount :=
      (Billing.mk amount description false).get_discounted_amount insurance_coverage
    p.add_bill
      ⟨discounted_amount,
        description ++ " (after " ++ toString insurance_coverage ++ "% insurance discount)",
        false⟩
  else
    p.add_bill ⟨amount, description, false⟩

/-- `generate_bill` on the patient found by `find_patient`, then save. -/
def generate_bill (s : HospitalSystem) (identifier : String) (amount : ℚ)
    (description : String) : HospitalSystem :=
  match s.find_patient identifier with
  | none => s
  | some _ =>
    save_data
      { s with
        patients := updateFirst (matchesIdentifier identifier)
          (fun q => generate_bill_patient q amount description) s.patients }

/-- Menu option 5: refuse billing when the found patient is deceased,
otherwise `generate_bill`. -/
def menu_generate_bill (s : HospitalSystem) (identifier : String) (amount : ℚ)
    (description : String) : HospitalSystem :=
  match s.find_patient identifier with
  | none => s
  | some p => if p.status == "death" then s else s.generate_bill identifier amount description

/-- `remove_patient` on the patient found by `find_patient`: drop that object
from the list and save. -/
def remove_patient (s : HospitalSystem) (identifier : String) : HospitalSystem :=
  match s.find_patient identifier with
  | none => s
  | some _ =>
    save_data { s with patients := removeFirst (matchesIdentifier identifier) s.patients }

/-- Menu option 12: remove only a patient whose status is `'normal'`; a
deceased patient (or any other status) is refused with a message and no state
change. -/
def menu_remove_patient (s : HospitalSystem) (identifier : String) : HospitalSystem :=
  match s.find_patient identifier with
  | none => s
  | some p => if p.status == "normal" then s.remove_patient identifier else s

/-- `update_patient_status(name)`: find the patient by name; accept only the
four statuses; on `'death'` store the supplied date of death, on any other
accepted status clear it; then save.  An invalid status (or unknown name)
changes nothing. -/
def update_patient_status (s : HospitalSystem) (name new_status date_input : String) :
    HospitalSystem :=
  match s.patients.find? (fun p => p.name == name) with
  | none => s
  | some _ =>
    if new_status ∈ (["normal", "surgery", "emergency", "death"] : List String) then
      save_data
        { s with
          patients := updateFirst (fun p => p.name == name)
            (fun p =>
              { p with
                  status := new_status,
                  date_of_death := if new_status == "death" then some date_input else none })
            s.patients }
    else s

/-- `add_procedure_to_patient` on the patient found by `find_patient`. -/
def add_procedure_to_patient (s : HospitalSystem) (identifier date description : String) :
    HospitalSystem :=
  match s.find_patient identifier with
  | none => s
  | some _ =>
    save_data
      { s with
        patients := updateFirst (matchesIdentifier identifier)
          (fun q => q.add_procedure date description) s.patients }

/-- `patient.billing[idx].mark_paid()`: set the paid flag of the bill at
position `n` (the caller has checked the bound). -/
def markPaidAt : List Billing → Nat → List Billing
  | [], _ => []
  | b :: rest, 0 => b.mark_paid :: rest
  | b :: rest, n + 1 => b :: markPaidAt rest n

/-- `mark_bill_paid` on the patient found by `find_patient`: the caller
supplies the index (or a parse failure, `none`); an out-of-range or
unparsable index changes nothing. -/
def mark_bill_paid (s : HospitalSystem) (identifier : String) (bill_idx : Option Int) :
    HospitalSystem :=
  match s.find_patient identifier with
  | none => s
  | some p =>
    if p.billing.isEmpty then s
    else
      match bill_idx with
      | none => s
      | some idx =>
        if 0 ≤ idx ∧ idx < (p.billing.length : Int) then
          save_data
            { s with
              patients := updateFirst (matchesIdentifier identifier)
                (fun q => { q with billing := markPaidAt q.billing idx.toNat })
                s.patients }
        else s

end HospitalSystem

namespace HospitalSystem

/-- The loop body of `generate_bills_from_procedures`: walk the pre-computed
`(index, procedure)` pairs; for each, consume one amount prompt (`none` = the
`float(input(...))` raised, so that procedure is skipped); on success append
the derived bill and flip that procedure's `billed` flag. -/
def billProcs (amounts : Nat → Option ℚ) : Patient → List (Nat × ProcedureEntry) → Nat → Patient
  | p, [], _ => p
  | p, (idx, proc) :: rest, k =>
    match amounts k with
    | none => billProcs amounts p rest (k + 1)
    | some amount =>
      let desc := "Procedure: " ++ proc.description ++ " on " ++ proc.date
      let p1 := (p.add_bill ⟨amount, desc, false⟩).mark_procedure_billed (Int.ofNat idx)
      billProcs amounts p1 rest (k + 1)

end HospitalSystem

/-- `generate_bills_from_procedures` restricted to one patient: compute the
unbilled `(index, procedure)` pairs once; if there are none, nothing happens;
otherwise process them in order, prompting one amount per procedure. -/
def Patient.generate_bills_from_procedures (p : Patient) (amounts : Nat → Option ℚ) :
    Patient :=
  let unbilled := p.procedures.enum.filter (fun ip => !ip.2.billed)
  if unbilled.isEmpty then p else HospitalSystem.billProcs amounts p unbilled 0

namespace HospitalSystem

/-- `generate_bills_from_procedures` on the patient found by `find_patient`:
an early return (no save) when no unbilled procedure exists, otherwise the
per-patient processing followed by a save. -/
def generate_bills_from_procedures (s : HospitalSystem) (identifier : String)
    (amounts : Nat → Option ℚ) : HospitalSystem :=
  match s.find_patient identifier with
  | none => s
  | some p =>
    if (p.procedures.enum.filter (fun ip => !ip.2.billed)).isEmpty then s
    else
      save_data
        { s with
          patients := updateFirst (matchesIdentifier identifier)
            (fun q => q.generate_bills_from_procedures amounts) s.patients }

end HospitalSystem

/-- Python `input(...) or current` for a string field: blank keeps the
current value. -/
def pyOr (inp cur : String) : String :=
  if inp = "" then cur else inp

/-- Python `input(...) or current` when the current value may be `None`. -/
def pyOrOpt (inp : String) (cur : Option String) : Option String :=
  if inp = "" then cur else some inp

/-- The raw prompt answers consumed by `edit_patient` (blank = keep the
current value).  `coverage_input` is `none` when the coverage prompt was left
blank or `float` raised — both keep the current coverage. -/
structure EditPatientInput where
  name_input : String
  age_input : String
  phone_input : String
  dob_input : String
  gender_input : String
  email_input : String
  address_input : String
  identifier_input : String
  condition_input : String
  status_input : String
  kin_choice : String
  kin_name_input : String
  kin_number_input : String
  kin_email_input : String
  kin_relation_input : String
  death_date_input : String
  register_date_input : String
  discharge_date_input : String
  insurance_choice : String
  provider_input : String
  policy_input : String
  coverage_input : Option ℚ
deriving Repr

/-- The full field assignment at the end of `edit_patient`, given that
`int(new_age)` succeeded with value `new_age`. -/
def editApply (p : Patient) (inp : EditPatientInput) (new_age : Int) : Patient :=
  let new_status := pyOr inp.status_input p.status
  let kin_choice := inp.kin_choice.trim.toLower
  let new_kin : Option NextOfKin :=
    if kin_choice = "no" ∨ kin_choice = "n" then none
    else if kin_choice = "yes" ∨ kin_choice = "y" then
      let kin := p.patient_next_of_kin.getD defaultNextOfKin
      some ⟨pyOr inp.kin_name_input kin.name, pyOr inp.kin_number_input kin.number,
        pyOr inp.kin_email_input kin.email, pyOr inp.kin_relation_input kin.relation⟩
    else p.patient_next_of_kin
  let ins_choice := inp.insurance_choice.trim.toLower
  let new_insurance : Insurance :=
    if ins_choice = "no" ∨ ins_choice = "n" then ⟨"", "", 0⟩
    else if ins_choice = "yes" ∨ ins_choice = "y" then
      let ins := p.insurance
      ⟨pyOr inp.provider_input ins.provider, pyOr inp.policy_input ins.policy_number,
        inp.coverage_input.getD ins.coverage_percent⟩
    else p.insurance
  { p with
      name := pyOr inp.name_input p.name,
      age := new_age,
      phone_number := pyOr inp.phone_input p.phone_number,
      date_of_birth := pyOr inp.dob_input p.date_of_birth,
      gender := pyOr inp.gender_input p.gender,
      email := pyOr inp.email_input p.email,
      address := pyOr inp.address_input p.address,
      identifier := pyOr inp.identifier_input p.identifier,
      condition := pyOr inp.condition_input p.condition,
      status := new_status,
      patient_next_of_kin := new_kin,
      date_of_death :=
        if new_status = "death" then pyOrOpt inp.death_date_input p.date_of_death else none,
      register_date := pyOrOpt inp.register_date_input p.register_date,
      discharge_date := pyOrOpt inp.discharge_date_input p.discharge_date,
      insurance := new_insurance }

namespace HospitalSystem

/-- `edit_patient` on the patient found by `find_patient`.  A non-blank,
non-numeric age answer makes `int(new_age)` raise after `patient.name` was
already assigned: the name change sticks, the rest of the edit (and the save)
is abandoned. -/
def edit_patient (s : HospitalSystem) (identifier : String) (inp : EditPatientInput) :
    HospitalSystem :=
  match s.find_patient identifier with
  | none => s
  | some p =>
    let new_age : Option Int :=
      if inp.age_input = "" then some p.age else inp.age_input.toInt?
    match new_age with
    | none =>
      { s with
        patients := updateFirst (matchesIdentifier identifier)
          (fun q => { q with name := pyOr inp.name_input q.name }) s.patients }
    | some a =>
      save_data
        { s with
          patients := updateFirst (matchesIdentifier identifier)
            (fun q => editApply q inp a) s.patients }

/-- Menu option 15: find the patient by name or number, then run
`update_patient_status` on that patient's name. -/
def menu_update_status (s : HospitalSystem) (identifier new_status date_input : String) :
    HospitalSystem :=
  match s.find_patient identifier with
  | none => s
  | some p => s.update_patient_status p.name new_status date_input

/-- `add_department`: create the department unless the name exists. -/
def add_department (s : HospitalSystem) (name : String) : HospitalSystem :=
  if (dictFind s.departments name).isNone then
    save_data { s with departments := dictInsert s.departments name (Department.make name) }
  else s

/-- `add_staff_to_department`: auto-create the department, then construct a
`Doctor`, `Nurse` or plain `Staff` from the case-insensitive position and
append it, then save. -/
def add_staff_to_department (s : HospitalSystem) (dept_name staff_name : String)
    (staff_age : Int)
    (staff_position staff_phone staff_dob staff_gender staff_email staff_address
      staff_identifier : String) (specialty : Option String) : HospitalSystem :=
  let s1 := if (dictFind s.departments dept_name).isNone then s.add_department dept_name else s
  let addFn : Department → Department :=
    if staff_position.toLower == "doctor" then
      fun d => d.add_doctor (Doctor.make staff_name staff_age staff_phone staff_dob
        staff_gender staff_email staff_address staff_identifier (specialty.getD "General"))
    else if staff_position.toLower == "nurse" then
      fun d => d.add_nurse (Nurse.make staff_name staff_age staff_phone staff_dob
        staff_gender staff_email staff_address staff_identifier (some dept_name))
    else
      fun d => d.add_staff ⟨staff_name, staff_age, staff_phone, staff_dob, staff_gender,
        staff_email, staff_address, staff_identifier, staff_position⟩
  save_data
    { s1 with
      departments := updateFirst (fun nd => nd.1 == dept_name)
        (fun nd => (nd.1, addFn nd.2)) s1.departments }

/-- `assign_patient_to_doctor_in_department`: requires the department and a
doctor of that name in its doctor list; appends the patient to the doctor's
list and the department's patient list, then saves. -/
def assign_patient_to_doctor_in_department (s : HospitalSystem)
    (dept_name doctor_name : String) (patient : Patient) : HospitalSystem :=
  match dictFind s.departments dept_name with
  | none => s
  | some dept =>
    match dept.doctors.find? (fun d => d.toStaff.name == doctor_name) with
    | none => s
    | some _ =>
      save_data
        { s with
          departments := updateFirst (fun nd => nd.1 == dept_name)
            (fun nd =>
              (nd.1,
                { nd.2 with
                    doctors := updateFirst (fun d => d.toStaff.name == doctor_name)
                      (fun d => d.add_patient patient) nd.2.doctors,
                    patients := nd.2.patients ++ [patient] }))
            s.departments }

/-- `remove_staff_from_department`: drop the first staff member of that name
from the department's staff list, then save. -/
def remove_staff_from_department (s : HospitalSystem) (dept_name staff_name : String) :
    HospitalSystem :=
  match dictFind s.departments dept_name with
  | none => s
  | some dept =>
    match dept.staff.find? (fun st => st.name == staff_name) with
    | none => s
    | some _ =>
      save_data
        { s with
          departments := updateFirst (fun nd => nd.1 == dept_name)
            (fun nd =>
              (nd.1, { nd.2 with staff := removeFirst (fun st => st.name == staff_name) nd.2.staff }))
            s.departments }

end HospitalSystem

/-- The deduplication loop of `load_data`: keep a patient only when its
`patient_number` has not been seen yet. -/
def dedupByNumber : List Patient → List String → List Patient
  | [], _ => []
  | p :: rest, seen =>
    if p.patient_number ∈ seen then dedupByNumber rest seen
    else p :: dedupByNumber rest (p.patient_number :: seen)

/-- `load_data` (which `__init__` always runs): an absent or unparsable file
yields the empty state; otherwise rebuild patients (deduplicated by number),
derive the room index from truthy room numbers (a dict comprehension), and
rebuild each department's staff from the saved dicts — note the saved keys
are fed positionally into `Staff(name, age, phone_number, date_of_birth,
gender, email, address, identifier, position)` starting with `s['position']`
third, so every field after `age` lands in the wrong slot. -/
def load_data (file : Option Doc) : HospitalSystem :=
  match file with
  | none => ⟨[], [], [], none⟩
  | some d =>
    let loaded := d.patients.map Patient.from_dict
    let patients := dedupByNumber loaded []
    let rooms :=
      patients.foldl
        (fun r p =>
          match p.room_number with
          | some rn => if rn ≠ 0 then dictInsert r rn p.name else r
          | none => r)
        []
    let departments :=
      d.departments.map fun nd =>
        (nd.1,
          { Department.make nd.1 with
              staff := nd.2.staff.map fun st =>
                { name := st.name, age := st.age,
                  phone_number := st.position,
                  date_of_birth := st.phone_number,
                  gender := st.date_of_birth,
                  email := st.gender,
                  address := st.email,
                  identifier := st.address,
                  position := st.identifier } })
    ⟨patients, rooms, departments, some d⟩

/-- `HospitalSystem.__init__`: empty registries, then `load_data`. -/
def initState (file : Option Doc) : HospitalSystem :=
  load_data file

/-- One mutating operation the menu can drive (the parameters are the prompt
answers it would collect before dispatching).  `edit_staff_in_department`
(menu 13) is omitted: it does not touch the patient registry. -/
inductive Op where
  | addPatient (inp : HospitalSystem.NewPatientInput) (register_date : String)
  | assignRoom (identifier : String) (room : Int)
  | generateBill (identifier : String) (amount : ℚ) (description : String)
  | removePatient (identifier : String)
  | updateStatus (identifier new_status date_input : String)
  | editPatient (identifier : String) (inp : EditPatientInput)
  | addProcedure (identifier date description : String)
  | genBillsFromProcedures (identifier : String) (amounts : Nat → Option ℚ)
  | markBillPaid (identifier : String) (idx : Option Int)
  | addDepartment (name : String)
  | addStaff (dept_name staff_name : String) (age : Int)
      (position phone dob gender email address ident : String) (specialty : Option String)
  | assignPatientToDoctor (dept_name doctor_name identifier : String)
  | removeStaff (dept_name staff_name : String)
  | saveData

/-- Dispatch one operation exactly as the corresponding menu branch does
(including its status gates and its `find_patient` lookups). -/
def step (s : HospitalSystem) : Op → HospitalSystem
  | Op.addPatient inp register_date => s.add_patient inp register_date
  | Op.assignRoom identifier room => s.menu_assign_room identifier room
  | Op.generateBill identifier amount description =>
    s.menu_generate_bill identifier amount description
  | Op.removePatient identifier => s.menu_remove_patient identifier
  | Op.updateStatus identifier new_status date_input =>
    s.menu_update_status identifier new_status date_input
  | Op.editPatient identifier inp => s.edit_patient identifier inp
  | Op.addProcedure identifier date description =>
    s.add_procedure_to_patient identifier date description
  | Op.genBillsFromProcedures identifier amounts =>
    s.generate_bills_from_procedures identifier amounts
  | Op.markBillPaid identifier idx => s.mark_bill_paid identifier idx
  | Op.addDepartment name => s.add_department name
  | Op.addStaff dept_name staff_name age position phone dob gender email address ident
      specialty =>
    s.add_staff_to_department dept_name staff_name age position phone dob gender email
      address ident specialty
  | Op.assignPatientToDoctor dept_name doctor_name identifier =>
    match s.find_patient identifier with
    | none => s
    | some p => s.assign_patient_to_doctor_in_department dept_name doctor_name p
  | Op.removeStaff dept_name staff_name => s.remove_staff_from_department dept_name staff_name
  | Op.saveData => s.save_data

/-- Run a sequence of operations from a state. -/
def runOps (s : HospitalSystem) (ops : List Op) : HospitalSystem :=
  ops.foldl step s

/-! ### Generic lemmas about the list helpers -/

theorem find?_of_decomp {α : Type} (pred : α → Bool) (pre post : List α) (x : α)
    (hpre : ∀ q ∈ pre, pred q = false) (hx : pred x = true) :
    (pre ++ x :: post).find? pred = some x := by
  induction pre with
  | nil => simp [List.find?, hx]
  | cons a pre ih =>
    have ha : pred a = false := hpre a (by simp)
    simp only [List.cons_append, List.find?, ha]
    exact ih (fun q hq => hpre q (by simp [hq]))

theorem updateFirst_decomp {α : Type} (pred : α → Bool) (f : α → α) (pre post : List α)
    (x : α) (hpre : ∀ q ∈ pre, pred q = false) (hx : pred x = true) :
    updateFirst pred f (pre ++ x :: post) = pre ++ f x :: post := by
  induction pre with
  | nil => simp [updateFirst, hx]
  | cons a pre ih =>
    have ha : pred a = false := hpre a (by simp)
    simp only [List.cons_append, updateFirst, ha, Bool.false_eq_true, if_false,
      List.cons.injEq, true_and]
    exact ih (fun q hq => hpre q (by simp [hq]))

theorem removeFirst_decomp {α : Type} (pred : α → Bool) (pre post : List α)
    (x : α) (hpre : ∀ q ∈ pre, pred q = false) (hx : pred x = true) :
    removeFirst pred (pre ++ x :: post) = pre ++ post := by
  induction pre with
  | nil => simp [removeFirst, hx]
  | cons a pre ih =>
    have ha : pred a = false := hpre a (by simp)
    simp only [List.cons_append, removeFirst, ha, Bool.false_eq_true, if_false,
      List.cons.injEq, true_and]
    exact ih (fun q hq => hpre q (by simp [hq]))

theorem updateFirst_map {α β : Type} (pred : α → Bool) (f : α → α) (g : α → β)
    (hf : ∀ a, g (f a) = g a) : ∀ l : List α,
    (updateFirst pred f l).map g = l.map g := by
  intro l
  induction l with
  | nil => rfl
  | cons a l ih =>
    by_cases ha : pred a = true
    · simp [updateFirst, ha, hf]
    · simp [updateFirst, ha, ih]

theorem removeFirst_sublist {α : Type} (pred : α → Bool) : ∀ l : List α,
    (removeFirst pred l).Sublist l := by
  intro l
  induction l with
  | nil => exact List.Sublist.refl []
  | cons a l ih =>
    by_cases ha : pred a = true
    · rw [removeFirst, if_pos ha]
      exact List.sublist_cons_self a l
    · rw [removeFirst, if_neg ha]
      exact List.Sublist.cons₂ a ih

theorem setBilledAt_length : ∀ (l : List ProcedureEntry) (n : Nat),
    (setBilledAt l n).length = l.length := by
  intro l
  induction l with
  | nil => intro n; rfl
  | cons a l ih =>
    intro n
    cases n with
    | zero => rfl
    | succ m => simp [setBilledAt, ih]

theorem setBilledAt_get_ne : ∀ (l : List ProcedureEntry) (n j : Nat), j ≠ n →
    (setBilledAt l n)[j]? = l[j]? := by
  intro l
  induction l with
  | nil => intro n j _; rfl
  | cons a l ih =>
    intro n j hj
    cases n with
    | zero =>
      cases j with
      | zero => exact absurd rfl hj
      | succ i => simp [setBilledAt]
    | succ m =>
      cases j with
      | zero => simp [setBilledAt]
      | succ i =>
        simp only [setBilledAt, List.getElem?_cons_succ]
        exact ih m i (fun h => hj (by rw [h]))

theorem setBilledAt_get_eq : ∀ (l : List ProcedureEntry) (n : Nat),
    (setBilledAt l n)[n]? = (l[n]?).map (fun proc => { proc with billed := true }) := by
  intro l
  induction l with
  | nil => intro n; cases n <;> rfl
  | cons a l ih =>
    intro n
    cases n with
    | zero => simp [setBilledAt]
    | succ m =>
      simp only [setBilledAt, List.getElem?_cons_succ]
      exact ih m

theorem le_listMax : ∀ (l : List Nat), ∀ x ∈ l, x ≤ listMax l := by
  intro l
  induction l with
  | nil => intro x hx; cases hx
  | cons a l ih =>
    intro x hx
    rcases List.mem_cons.mp hx with h | h
    · rw [h]; exact le_max_left a (listMax l)
    · exact le_trans (ih x h) (le_max_right a (listMax l))

theorem listMax_mem : ∀ (l : List Nat), l ≠ [] → listMax l ∈ l := by
  intro l
  induction l with
  | nil => intro h; exact absurd rfl h
  | cons a l ih =>
    intro _
    rcases l with _ | ⟨b, l2⟩
    · simp [listMax]
    · rcases le_total a (listMax (b :: l2)) with h | h
      · have : listMax (a :: b :: l2) = listMax (b :: l2) := by
          show max a (listMax (b :: l2)) = listMax (b :: l2)
          exact max_eq_right h
        rw [this]
        exact List.mem_cons_of_mem a (ih (by simp))
      · have : listMax (a :: b :: l2) = a := by
          show max a (listMax (b :: l2)) = a
          exact max_eq_left h
        rw [this]
        exact List.mem_cons_self a (b :: l2)

theorem enumFrom_filter_billed_nil :
    ∀ (l : List ProcedureEntry) (n : Nat), (∀ x ∈ l, x.billed = true) →
    (List.enumFrom n l).filter (fun ip => !ip.2.billed) = [] := by
  intro l
  induction l with
  | nil => intro n _; rfl
  | cons a l ih =>
    intro n h
    have ha : a.billed = true := h a (by simp)
    simp only [List.enumFrom, List.filter, ha, Bool.not_true]
    exact ih (n + 1) (fun x hx => h x (by simp [hx]))

theorem dedupByNumber_nodup : ∀ (l : List Patient) (seen : List String),
    ((dedupByNumber l seen).map Patient.patient_number).Nodup
    ∧ ∀ x ∈ (dedupByNumber l seen).map Patient.patient_number, x ∉ seen := by
  intro l
  induction l with
  | nil => intro seen; exact ⟨List.nodup_nil, by intro x hx; cases hx⟩
  | cons p l ih =>
    intro seen
    by_cases hp : p.patient_number ∈ seen
    · simpa [dedupByNumber, hp] using ih seen
    · have h2 := ih (p.patient_number :: seen)
      refine ⟨?_, ?_⟩
      · simp only [dedupByNumber, hp, if_false, List.map_cons, List.nodup_cons]
        refine ⟨fun hmem => ?_, h2.1⟩
        exact (h2.2 _ hmem) (List.mem_cons_self _ _)
      · intro x hx
        simp only [dedupByNumber, hp, if_false, List.map_cons, List.mem_cons] at hx
        rcases hx with h | h
        · rw [h]; exact hp
        · intro hxs
          exact (h2.2 x h) (List.mem_cons_of_mem _ hxs)

/-! ### Example values used by the concrete witnesses -/

/-- A concrete patient used as a base for witness states. -/
def basePatient : Patient :=
  { name := "Alice", age := 30, phone_number := "0100",
    date_of_birth := "1990-01-01", gender := "F", email := "alice@x",
    address := "Cairo", identifier := "A1", condition := "Flu",
    patient_number := "1001", patient_next_of_kin := some defaultNextOfKin,
    room_number := none, procedures := [], billing := [], status := "normal",
    register_date := some "2024-01-01", discharge_date := none,
    date_of_death := none, insurance := defaultInsurance }

/-- A concrete patient with one unbilled procedure. -/
def pProc : Patient :=
  { basePatient with procedures := [⟨"2024-01-02", "MRI", false⟩] }

/-- A concrete patient with 20% insurance coverage. -/
def pCov20 : Patient :=
  { basePatient with insurance := ⟨"Prov", "Pol", 20⟩ }

/-- C10: `mark_procedure_billed` is total and safe — an index outside
`[0, len(procedures))` leaves the patient entirely unchanged and raises no
error; an in-range index sets exactly that procedure's `billed` flag to true
and changes nothing else (same length, every other position untouched, every
other patient field untouched). -/
theorem mark_procedure_billed_safe (p : Patient) (index : Int) :
    (¬ (0 ≤ index ∧ index < (p.procedures.length : Int)) →
      p.mark_procedure_billed index = p)
    ∧ ((0 ≤ index ∧ index < (p.procedures.length : Int)) →
      (p.mark_procedure_billed index).procedures.length = p.procedures.length
      ∧ ((p.mark_procedure_billed index).procedures)[index.toNat]?
          = (p.procedures[index.toNat]?).map (fun proc => { proc with billed := true })
      ∧ (∀ j : Nat, j ≠ index.toNat →
          ((p.mark_procedure_billed index).procedures)[j]? = p.procedures[j]?)
      ∧ { p.mark_procedure_billed index with procedures := p.procedures } = p) := by
  constructor
  · intro h
    simp [Patient.mark_procedure_billed, h]
  · intro h
    simp only [Patient.mark_procedure_billed, if_pos h]
    refine ⟨setBilledAt_length _ _, setBilledAt_get_eq _ _, ?_, by trivial⟩
    intro j hj
    exact setBilledAt_get_ne _ _ _ hj

/-- Witness for C10 at concrete inputs: index 2 is out of range on a
one-procedure patient and is a no-op; index 0 is in range and marks the MRI
procedure billed. -/
theorem mark_procedure_billed_safe_witness :
    (¬ (0 ≤ (2 : Int) ∧ (2 : Int) < (pProc.procedures.length : Int)))
    ∧ pProc.mark_procedure_billed 2 = pProc
    ∧ (0 ≤ (0 : Int) ∧ (0 : Int) < (pProc.procedures.length : Int))
    ∧ ((pProc.mark_procedure_billed 0).procedures)[0]?
        = some ⟨"2024-01-02", "MRI", true⟩ := by
  refine ⟨by decide, (mark_procedure_billed_safe pProc 2).1 (by decide), by decide, ?_⟩
  have h := ((mark_procedure_billed_safe pProc 0).2 (by decide)).2.1
  exact h.trans (by decide)

/-- C3: `generate_bill` with positive coverage stores a bill whose amount is
`amount * (1 - coverage_percent / 100)` and whose description is annotated
with the applied percentage; with coverage 0 it stores the raw amount and the
unchanged description.  Only the billing ledger changes. -/
theorem generate_bill_insurance_discount (p : Patient) (amount : ℚ) (description : String) :
    (0 < p.insurance.coverage_percent →
      HospitalSystem.generate_bill_patient p amount description
        = { p with billing := p.billing ++
            [⟨amount * (1 - p.insurance.coverage_percent / 100),
              description ++ " (after " ++ toString p.insurance.coverage_percent
                ++ "% insurance discount)", false⟩] })
    ∧ (p.insurance.coverage_percent = 0 →
      HospitalSystem.generate_bill_patient p amount description
        = { p with billing := p.billing ++ [⟨amount, description, false⟩] }) := by
  constructor
  · intro h
    have harith : amount - p.insurance.coverage_percent / 100 * amount
        = amount * (1 - p.insurance.coverage_percent / 100) := by ring
    simp only [HospitalSystem.generate_bill_patient, Billing.get_discounted_amount,
      Patient.add_bill, gt_iff_lt, if_pos h]
    rw [harith]
  · intro h
    simp [HospitalSystem.generate_bill_patient, Patient.add_bill, h]

/-- Witness for C3: coverage 20 and amount 1000 store a bill of 800 with the
annotated description. -/
theorem generate_bill_insurance_discount_witness :
    (0 : ℚ) < pCov20.insurance.coverage_percent
    ∧ (HospitalSystem.generate_bill_patient pCov20 1000 "X").billing
        = [⟨800, "X (after 20% insurance discount)", false⟩] := by
  refine ⟨by norm_num [pCov20], ?_⟩
  have h := (generate_bill_insurance_discount pCov20 1000 "X").1 (by norm_num [pCov20])
  rw [h]
  norm_num [pCov20, basePatient]
  rfl

/-- C7: once a call to `generate_bills_from_procedures` has left every
procedure billed, an immediately following call changes nothing — no new
bills, no procedure change (it takes the early `no unbilled procedures`
return). -/
theorem procedures_bill_idempotent (p : Patient) (a1 a2 : Nat → Option ℚ)
    (h : ∀ proc ∈ (p.generate_bills_from_procedures a1).procedures, proc.billed = true) :
    (p.generate_bills_from_procedures a1).generate_bills_from_procedures a2
      = p.generate_bills_from_procedures a1 := by
  have hfilter :
      ((p.generate_bills_from_procedures a1).procedures.enum.filter
        (fun ip => !ip.2.billed)) = [] := by
    have hw := enumFrom_filter_billed_nil (p.generate_bills_from_procedures a1).procedures 0 h
    simpa [List.enum] using hw
  conv_lhs => rw [Patient.generate_bills_from_procedures]
  simp [hfilter]

/-- Witness for C7: one unbilled MRI procedure, first call bills it (amount
prompt answers 150), second call (any prompt answers) is a no-op. -/
theorem procedures_bill_idempotent_witness :
    (∀ proc ∈ (pProc.generate_bills_from_procedures (fun _ => some 150)).procedures,
      proc.billed = true)
    ∧ (pProc.generate_bills_from_procedures (fun _ => some 150)).generate_bills_from_procedures
        (fun _ => some 999)
      = pProc.generate_bills_from_procedures (fun _ => some 150) :=
  ⟨by decide, procedures_bill_idempotent pProc (fun _ => some 150) (fun _ => some 999)
    (by decide)⟩

/-- A second concrete patient (different name, identifier and number). -/
def bobPatient : Patient :=
  { basePatient with name := "Bob", identifier := "B1", patient_number := "1002" }

/-- A state with an empty registry whose stored document holds patients
numbered 1001 and 1002. -/
def sPersisted : HospitalSystem :=
  { patients := [], rooms := [], departments := [],
    storedDoc := some ⟨[basePatient, bobPatient], []⟩ }

/-- The empty state (empty registry, no stored document). -/
def sEmpty : HospitalSystem :=
  ⟨[], [], [], none⟩

/-- C2: `generate_patient_number` collects every numeric-looking patient
number from the in-memory patients and the persisted document; when the
collection is non-empty the result is the string form of its maximum plus
one (the maximum being a collected element that dominates all others), and
when it is empty the result is the baseline "1001".  Non-numeric numbers are
skipped by the collection, never errors. -/
theorem allocator_spec (s : HospitalSystem) :
    (HospitalSystem.collectedNumbers s ≠ [] →
      listMax (HospitalSystem.collectedNumbers s) ∈ HospitalSystem.collectedNumbers s
      ∧ (∀ x ∈ HospitalSystem.collectedNumbers s,
          x ≤ listMax (HospitalSystem.collectedNumbers s))
      ∧ s.generate_patient_number
          = toString (listMax (HospitalSystem.collectedNumbers s) + 1))
    ∧ (HospitalSystem.collectedNumbers s = [] → s.generate_patient_number = "1001") := by
  constructor
  · intro h
    exact ⟨listMax_mem _ h, le_listMax _,
      by simp [HospitalSystem.generate_patient_number, h]⟩
  · intro h
    simp [HospitalSystem.generate_patient_number, h]

/-- Witness for C2: persisted numbers {1001, 1002} with no in-memory patients
give "1003"; the empty registry and store give "1001". -/
theorem allocator_spec_witness :
    HospitalSystem.collectedNumbers sPersisted ≠ []
    ∧ HospitalSystem.generate_patient_number sPersisted = "1003"
    ∧ HospitalSystem.collectedNumbers sEmpty = []
    ∧ HospitalSystem.generate_patient_number sEmpty = "1001" := by
  refine ⟨by decide, ?_, by decide, (allocator_spec sEmpty).2 (by decide)⟩
  have h := ((allocator_spec sPersisted).1 (by decide)).2.2
  exact h.trans (by decide)

/-! ### Evaluation lemmas for the status and room operations -/

theorem find_patient_decomp (s : HospitalSystem) (id : String)
    (pre post : List Patient) (p : Patient)
    (hsp : s.patients = pre ++ p :: post)
    (hpre : ∀ q ∈ pre, matchesIdentifier id q = false)
    (hp : matchesIdentifier id p = true) :
    s.find_patient id = some p := by
  unfold HospitalSystem.find_patient
  rw [hsp]
  exact find?_of_decomp _ _ _ _ hpre hp

theorem update_status_reject (s : HospitalSystem) (nm ns d : String)
    (hns : ns ∉ (["normal", "surgery", "emergency", "death"] : List String)) :
    s.update_patient_status nm ns d = s := by
  unfold HospitalSystem.update_patient_status
  cases s.patients.find? (fun p => p.name == nm) with
  | none => rfl
  | some q => simp [hns]

theorem update_status_eval (s : HospitalSystem) (nm ns d : String)
    (pre post : List Patient) (p : Patient)
    (hsp : s.patients = pre ++ p :: post)
    (hpre : ∀ q ∈ pre, (q.name == nm) = false)
    (hp : (p.name == nm) = true)
    (hns : ns ∈ (["normal", "surgery", "emergency", "death"] : List String)) :
    s.update_patient_status nm ns d
      = HospitalSystem.save_data
          { s with patients := pre ++
              { p with
                  status := ns,
                  date_of_death := if ns == "death" then some d else none } :: post } := by
  have hfind : s.patients.find? (fun q => q.name == nm) = some p := by
    rw [hsp]; exact find?_of_decomp _ _ _ _ hpre hp
  have hupd : updateFirst (fun q => q.name == nm)
      (fun q => { q with
          status := ns,
          date_of_death := if ns == "death" then some d else none }) s.patients
      = pre ++ { p with
          status := ns,
          date_of_death := if ns == "death" then some d else none } :: post := by
    rw [hsp]; exact updateFirst_decomp _ _ _ _ _ hpre hp
  unfold HospitalSystem.update_patient_status
  rw [hfind]
  simp only [hns, if_true, hupd]

/-- A state holding just the (normal-status) base patient. -/
def sNorm : HospitalSystem :=
  ⟨[basePatient], [], [], none⟩

/-- C6: `update_patient_status` rejects any status outside the four-state set
with no state change of any kind; the accepted value "death" stores the
supplied date of death on the found patient; the other three accepted values
set the status and clear the date of death; in every accepted case only that
one patient changes. -/
theorem update_status_validation (s : HospitalSystem) (nm ns d : String)
    (pre post : List Patient) (p : Patient)
    (hsp : s.patients = pre ++ p :: post)
    (hpre : ∀ q ∈ pre, (q.name == nm) = false)
    (hp : (p.name == nm) = true) :
    (ns ∉ (["normal", "surgery", "emergency", "death"] : List String) →
      s.update_patient_status nm ns d = s)
    ∧ (ns = "death" →
      (s.update_patient_status nm ns d).patients
        = pre ++ { p with status := "death", date_of_death := some d } :: post
      ∧ (s.update_patient_status nm ns d).rooms = s.rooms
      ∧ (s.update_patient_status nm ns d).departments = s.departments)
    ∧ (ns ∈ (["normal", "surgery", "emergency"] : List String) →
      (s.update_patient_status nm ns d).patients
        = pre ++ { p with status := ns, date_of_death := none } :: post
      ∧ (s.update_patient_status nm ns d).rooms = s.rooms
      ∧ (s.update_patient_status nm ns d).departments = s.departments) := by
  refine ⟨fun hns => update_status_reject s nm ns d hns, fun hns => ?_, fun hns => ?_⟩
  · subst hns
    rw [update_status_eval s nm "death" d pre post p hsp hpre hp (by simp)]
    exact ⟨rfl, rfl, rfl⟩
  · have hns4 : ns ∈ (["normal", "surgery", "emergency", "death"] : List String) := by
      simp only [List.mem_cons, List.mem_singleton] at hns ⊢
      tauto
    have hnsd : (ns == "death") = false := by
      simp only [List.mem_cons, List.mem_singleton] at hns
      rcases hns with h | h | h | h
      · rw [h]; rfl
      · rw [h]; rfl
      · rw [h]; rfl
      · cases h
    rw [update_status_eval s nm ns d pre post p hsp hpre hp hns4]
    rw [hnsd]
    exact ⟨rfl, rfl, rfl⟩

/-- Witness for C6 on a one-patient state: an invalid status is a no-op;
"death" stores the supplied date; "surgery" clears the date of death. -/
theorem update_status_validation_witness :
    sNorm.update_patient_status "Alice" "invalid" "x" = sNorm
    ∧ (sNorm.update_patient_status "Alice" "death" "2024-02-02").patients
        = [{ basePatient with status := "death", date_of_death := some "2024-02-02" }]
    ∧ (sNorm.update_patient_status "Alice" "surgery" "x").patients
        = [{ basePatient with status := "surgery", date_of_death := none }] := by
  refine ⟨(update_status_validation sNorm "Alice" "invalid" "x" [] [] basePatient rfl
      (by decide) (by decide)).1 (by decide), ?_, ?_⟩
  · exact ((update_status_validation sNorm "Alice" "death" "2024-02-02" [] [] basePatient
      rfl (by decide) (by decide)).2.1 rfl).1
  · exact ((update_status_validation sNorm "Alice" "surgery" "x" [] [] basePatient rfl
      (by decide) (by decide)).2.2 (by decide)).1

/-- The prompt answers for adding the base patient through the menu. -/
def aliceInput : HospitalSystem.NewPatientInput :=
  { name := "Alice", age := 30, condition := "Flu", phone_number := "0100",
    date_of_birth := "1990-01-01", gender := "F", email := "alice@x",
    address := "Cairo", identifier := "A1", patient_next_of_kin := none,
    room_number := none, insurance := none }

/-- A reachable state (fresh system, add Alice, set her status to death). -/
def sDead : HospitalSystem :=
  runOps (initState none)
    [Op.addPatient aliceInput "2024-01-01", Op.updateStatus "Alice" "death" "2024-02-02"]

/-- The base patient with a death status. -/
def deadAlice : Patient :=
  { basePatient with status := "death", date_of_death := some "2024-02-02" }

/-- A directly-built state holding one deceased patient. -/
def sDead2 : HospitalSystem :=
  ⟨[deadAlice], [], [], none⟩

/-- C5 counterexample: "death" is not terminal.  In the reachable state
`sDead` the only patient has status "death", yet the `update_status`
operation moves that status back to "normal" — an engine operation does
change a deceased patient's status. -/
theorem death_terminal_counterexample :
    sDead.patients.map Patient.status = ["death"]
    ∧ (step sDead (Op.updateStatus "Alice" "normal" "")).patients.map Patient.status
        = ["normal"] := by
  exact ⟨by decide, by decide⟩

/-- C5 (amended): the status lifecycle does not make "death" terminal.
`update_patient_status` accepts any of the four statuses regardless of the
patient's current status: for a deceased patient and any of the three
non-death statuses it sets that status (and clears `date_of_death`).  Death
only gates room assignment, billing and removal, not status updates. -/
theorem death_not_terminal (s : HospitalSystem) (nm ns d : String)
    (pre post : List Patient) (p : Patient)
    (hsp : s.patients = pre ++ p :: post)
    (hpre : ∀ q ∈ pre, (q.name == nm) = false)
    (hp : (p.name == nm) = true)
    (hdead : p.status = "death")
    (hns : ns ∈ (["normal", "surgery", "emergency"] : List String)) :
    (s.update_patient_status nm ns d).patients
      = pre ++ { p with status := ns, date_of_death := none } :: post
    ∧ ns ≠ "death" := by
  have hns4 : ns ∈ (["normal", "surgery", "emergency", "death"] : List String) := by
    simp only [List.mem_cons, List.mem_singleton] at hns ⊢
    tauto
  have hnsd : (ns == "death") = false := by
    simp only [List.mem_cons, List.mem_singleton] at hns
    rcases hns with h | h | h | h
    · rw [h]; rfl
    · rw [h]; rfl
    · rw [h]; rfl
    · cases h
  refine ⟨?_, by simpa using hnsd⟩
  rw [update_status_eval s nm ns d pre post p hsp hpre hp hns4]
  rw [hnsd]
  rfl

/-- Witness for C5 (amended) at a concrete deceased patient: the status goes
back to "normal". -/
theorem death_not_terminal_witness :
    (sDead2.update_patient_status "Alice" "normal" "x").patients
      = [{ deadAlice with status := "normal", date_of_death := none }] :=
  (death_not_terminal sDead2 "Alice" "normal" "x" [] [] deadAlice rfl (by decide)
    (by decide) (by decide) (by decide)).1

/-- C4: a deceased patient rejects room assignment, billing and removal with
no state change at all; a normal-status patient is removed by
`remove_patient` (the found patient leaves the registry, rooms and
departments untouched). -/
theorem lifecycle_gate (s : HospitalSystem) (id : String)
    (pre post : List Patient) (p : Patient)
    (hsp : s.patients = pre ++ p :: post)
    (hpre : ∀ q ∈ pre, matchesIdentifier id q = false)
    (hp : matchesIdentifier id p = true) :
    (p.status = "death" → ∀ (room : Int) (amount : ℚ) (desc : String),
      s.menu_assign_room id room = s
      ∧ s.menu_generate_bill id amount desc = s
      ∧ s.menu_remove_patient id = s)
    ∧ (p.status = "normal" →
      (s.menu_remove_patient id).patients = pre ++ post
      ∧ (s.menu_remove_patient id).rooms = s.rooms
      ∧ (s.menu_remove_patient id).departments = s.departments) := by
  have hfind : s.find_patient id = some p := find_patient_decomp s id pre post p hsp hpre hp
  constructor
  · intro hdead room amount desc
    have hb : (p.status == "death") = true := by simp [hdead]
    refine ⟨?_, ?_, ?_⟩
    · unfold HospitalSystem.menu_assign_room
      rw [hfind]
      simp [hb]
    · unfold HospitalSystem.menu_generate_bill
      rw [hfind]
      simp [hb]
    · have hn : (p.status == "normal") = false := by simp [hdead]
      unfold HospitalSystem.menu_remove_patient
      rw [hfind]
      simp [hn]
  · intro hnorm
    have hn : (p.status == "normal") = true := by simp [hnorm]
    have hrem : removeFirst (matchesIdentifier id) s.patients = pre ++ post := by
      rw [hsp]; exact removeFirst_decomp _ _ _ _ hpre hp
    unfold HospitalSystem.menu_remove_patient
    rw [hfind]
    simp only [hn, if_true]
    unfold HospitalSystem.remove_patient
    rw [hfind, hrem]
    exact ⟨rfl, rfl, rfl⟩

/-- Witness for C4: the deceased patient in `sDead2` blocks all three
operations; the normal patient in `sNorm` is removed. -/
theorem lifecycle_gate_witness :
    (sDead2.menu_assign_room "Alice" 204 = sDead2
      ∧ sDead2.menu_generate_bill "Alice" 500 "X" = sDead2
      ∧ sDead2.menu_remove_patient "Alice" = sDead2)
    ∧ (sNorm.menu_remove_patient "Alice").patients = [] := by
  constructor
  · exact (lifecycle_gate sDead2 "Alice" [] [] deadAlice rfl (by decide) (by decide)).1
      (by decide) 204 500 "X"
  · exact ((lifecycle_gate sNorm "Alice" [] [] basePatient rfl (by decide) (by decide)).2
      (by decide)).1

/-- The base patient occupying room 204. -/
def aliceRoomed : Patient :=
  { basePatient with room_number := some 204 }

/-- A state in which Alice holds room 204 and Bob has no room. -/
def sRooms : HospitalSystem :=
  ⟨[aliceRoomed, bobPatient], [(204, "Alice")], [], none⟩

/-- C1 counterexample: with Alice already holding room 204, assigning Bob to
room 204 is NOT rejected — the state changes, the room index entry is
remapped to Bob, and both patients end up carrying room 204 (so the occupied
room index is not kept 1:1 and no DuplicateKey-style failure occurs). -/
theorem assign_room_occupied_not_rejected :
    HospitalSystem.menu_assign_room sRooms "Bob" 204 ≠ sRooms
    ∧ (HospitalSystem.menu_assign_room sRooms "Bob" 204).rooms = [(204, "Bob")]
    ∧ (HospitalSystem.menu_assign_room sRooms "Bob" 204).patients.map Patient.room_number
        = [some 204, some 204] := by
  exact ⟨by decide, by decide, by decide⟩

/-- C1 (amended): `assign_room` performs no occupancy check.  For any found,
non-deceased patient it unconditionally sets that patient's `room_number` and
overwrites the room index entry with that patient's name; every other
patient — a previous occupant of the room included — is left unchanged, so an
occupied room is silently reassigned rather than rejected. -/
theorem assign_room_no_occupancy_check (s : HospitalSystem) (id : String) (room : Int)
    (pre post : List Patient) (p : Patient)
    (hsp : s.patients = pre ++ p :: post)
    (hpre : ∀ q ∈ pre, matchesIdentifier id q = false)
    (hp : matchesIdentifier id p = true)
    (hnd : p.status ≠ "death") :
    (s.menu_assign_room id room).patients
      = pre ++ { p with room_number := some room } :: post
    ∧ (s.menu_assign_room id room).rooms = dictInsert s.rooms room p.name
    ∧ (s.menu_assign_room id room).departments = s.departments := by
  have hfind : s.find_patient id = some p := find_patient_decomp s id pre post p hsp hpre hp
  have hb : (p.status == "death") = false := by
    simp only [beq_eq_false_iff_ne, ne_eq]
    exact hnd
  have hupd : updateFirst (matchesIdentifier id)
      (fun q => { q with room_number := some room }) s.patients
      = pre ++ { p with room_number := some room } :: post := by
    rw [hsp]; exact updateFirst_decomp _ _ _ _ _ hpre hp
  unfold HospitalSystem.menu_assign_room
  rw [hfind]
  simp only [hb, Bool.false_eq_true, if_false]
  unfold HospitalSystem.assign_room
  rw [hfind, hupd]
  exact ⟨rfl, rfl, rfl⟩

/-- Witness for C1 (amended): assigning Bob to the occupied room 204
reassigns the index entry and leaves Alice still carrying room 204. -/
theorem assign_room_no_occupancy_check_witness :
    (HospitalSystem.menu_assign_room sRooms "Bob" 204).patients
      = [aliceRoomed, { bobPatient with room_number := some 204 }]
    ∧ (HospitalSystem.menu_assign_room sRooms "Bob" 204).rooms
      = dictInsert sRooms.rooms 204 bobPatient.name := by
  have h := assign_room_no_occupancy_check sRooms "Bob" 204 [aliceRoomed] [] bobPatient
    rfl (by decide) (by decide) (by decide)
  exact ⟨h.1, h.2.1⟩

/-- A concrete staff member whose nine field values are pairwise distinct
enough to expose slot mix-ups. -/
def staffEx : Staff :=
  { name := "Sam", age := 40, phone_number := "555", date_of_birth := "1980-01-01",
    gender := "M", email := "sam@x", address := "Addr", identifier := "ID1",
    position := "Manager" }

/-- A state with one department holding that staff member. -/
def sStaff : HospitalSystem :=
  ⟨[], [], [("Cardio", { Department.make "Cardio" with staff := [staffEx] })], none⟩

/-- C8 (code bug): a save → load round trip does not preserve staff fields
bit-for-bit.  `save_data` writes the staff dict with `position` as the third
key and `load_data` feeds the saved values positionally into
`Staff(name, age, phone_number, date_of_birth, gender, email, address,
identifier, position)`, so the loaded staff member has `phone_number =
"Manager"` (the saved position), `position = "ID1"` (the saved identifier),
and every other post-age field shifted by one slot. -/
theorem roundtrip_staff_field_shuffle :
    (load_data (some (HospitalSystem.saveDoc sStaff))).departments.map
        (fun nd => nd.2.staff)
      = [[{ name := "Sam", age := 40, phone_number := "Manager",
            date_of_birth := "555", gender := "1980-01-01", email := "M",
            address := "sam@x", identifier := "Addr", position := "ID1" }]]
    ∧ sStaff.departments.map (fun nd => nd.2.staff) = [[staffEx]]
    ∧ ({ name := "Sam", age := 40, phone_number := "Manager",
         date_of_birth := "555", gender := "1980-01-01", email := "M",
         address := "sam@x", identifier := "Addr", position := "ID1" } : Staff)
        ≠ staffEx := by
  exact ⟨by decide, by decide, by decide⟩

/-! ### Patient-number preservation, towards the uniqueness invariant -/

/-- The registry's patient numbers, in order. -/
def pnums (s : HospitalSystem) : List String :=
  s.patients.map Patient.patient_number

theorem pn_add_bill (p : Patient) (b : Billing) :
    (p.add_bill b).patient_number = p.patient_number := rfl

theorem pn_mark_procedure_billed (p : Patient) (i : Int) :
    (p.mark_procedure_billed i).patient_number = p.patient_number := by
  unfold Patient.mark_procedure_billed
  split <;> rfl

theorem pn_billProcs (amounts : Nat → Option ℚ) :
    ∀ (pairs : List (Nat × ProcedureEntry)) (p : Patient) (k : Nat),
    (HospitalSystem.billProcs amounts p pairs k).patient_number = p.patient_number := by
  intro pairs
  induction pairs with
  | nil => intro p k; rfl
  | cons ip rest ih =>
    intro p k
    cases ip with
    | mk idx proc =>
      unfold HospitalSystem.billProcs
      cases amounts k with
      | none => exact ih p (k + 1)
      | some amt =>
        rw [ih _ (k + 1), pn_mark_procedure_billed, pn_add_bill]

theorem pn_gen_bills (p : Patient) (amounts : Nat → Option ℚ) :
    (p.generate_bills_from_procedures amounts).patient_number = p.patient_number := by
  by_cases he : ((p.procedures.enum.filter (fun ip => !ip.2.billed)).isEmpty) = true
  · simp only [Patient.generate_bills_from_procedures, he, if_true]
  · simp only [Patient.generate_bills_from_procedures, he, Bool.false_eq_true, if_false]
    exact pn_billProcs amounts _ p 0

theorem pn_generate_bill_patient (p : Patient) (amount : ℚ) (d : String) :
    (HospitalSystem.generate_bill_patient p amount d).patient_number
      = p.patient_number := by
  unfold HospitalSystem.generate_bill_patient
  split <;> rfl

theorem pn_editApply (p : Patient) (inp : EditPatientInput) (a : Int) :
    (editApply p inp a).patient_number = p.patient_number := rfl


/-! ### Each operation either preserves the number list, shrinks it, or
appends a fresh number -/

theorem assign_room_pnums (s : HospitalSystem) (id : String) (room : Int) :
    pnums (s.assign_room id room) = pnums s := by
  unfold pnums HospitalSystem.assign_room
  cases hf : s.find_patient id with
  | none => rfl
  | some p =>
    dsimp only
    exact updateFirst_map (matchesIdentifier id)
      (fun q => { q with room_number := some room })
      Patient.patient_number (fun q => rfl) s.patients

theorem menu_assign_room_pnums (s : HospitalSystem) (id : String) (room : Int) :
    pnums (s.menu_assign_room id room) = pnums s := by
  unfold HospitalSystem.menu_assign_room
  cases hf : s.find_patient id with
  | none => rfl
  | some p =>
    by_cases hb : (p.status == "death") = true
    · simp only [hb, if_true]
    · simp only [hb, Bool.false_eq_true, if_false]
      exact assign_room_pnums s id room

theorem generate_bill_pnums (s : HospitalSystem) (id : String) (amount : ℚ) (d : String) :
    pnums (s.generate_bill id amount d) = pnums s := by
  unfold pnums HospitalSystem.generate_bill
  cases hf : s.find_patient id with
  | none => rfl
  | some p =>
    dsimp only
    exact updateFirst_map (matchesIdentifier id)
      (fun q => HospitalSystem.generate_bill_patient q amount d)
      Patient.patient_number (fun q => pn_generate_bill_patient q amount d) s.patients

theorem menu_generate_bill_pnums (s : HospitalSystem) (id : String) (amount : ℚ)
    (d : String) : pnums (s.menu_generate_bill id amount d) = pnums s := by
  unfold HospitalSystem.menu_generate_bill
  cases hf : s.find_patient id with
  | none => rfl
  | some p =>
    by_cases hb : (p.status == "death") = true
    · simp only [hb, if_true]
    · simp only [hb, Bool.false_eq_true, if_false]
      exact generate_bill_pnums s id amount d

theorem update_patient_status_pnums (s : HospitalSystem) (nm ns d : String) :
    pnums (s.update_patient_status nm ns d) = pnums s := by
  unfold pnums HospitalSystem.update_patient_status
  cases hf : s.patients.find? (fun p => p.name == nm) with
  | none => rfl
  | some p =>
    by_cases hns : ns ∈ (["normal", "surgery", "emergency", "death"] : List String)
    · rw [if_pos hns]
      dsimp only
      exact updateFirst_map (fun q => q.name == nm)
        (fun q => { q with
            status := ns,
            date_of_death := if ns == "death" then some d else none })
        Patient.patient_number (fun q => rfl) s.patients
    · rw [if_neg hns]

theorem menu_update_status_pnums (s : HospitalSystem) (id ns d : String) :
    pnums (s.menu_update_status id ns d) = pnums s := by
  unfold HospitalSystem.menu_update_status
  cases hf : s.find_patient id with
  | none => rfl
  | some p => exact update_patient_status_pnums s p.name ns d

theorem edit_patient_pnums (s : HospitalSystem) (id : String) (inp : EditPatientInput) :
    pnums (s.edit_patient id inp) = pnums s := by
  unfold pnums HospitalSystem.edit_patient
  cases hf : s.find_patient id with
  | none => rfl
  | some p =>
    dsimp only
    by_cases hb : inp.age_input = ""
    · rw [if_pos hb]
      dsimp only
      exact updateFirst_map (matchesIdentifier id) (fun q => editApply q inp p.age)
        Patient.patient_number (fun q => pn_editApply q inp p.age) s.patients
    · rw [if_neg hb]
      cases hti : inp.age_input.toInt? with
      | none =>
        dsimp only
        exact updateFirst_map (matchesIdentifier id)
          (fun q => { q with name := pyOr inp.name_input q.name })
          Patient.patient_number (fun q => rfl) s.patients
      | some a =>
        dsimp only
        exact updateFirst_map (matchesIdentifier id) (fun q => editApply q inp a)
          Patient.patient_number (fun q => pn_editApply q inp a) s.patients

theorem add_procedure_pnums (s : HospitalSystem) (id date d : String) :
    pnums (s.add_procedure_to_patient id date d) = pnums s := by
  unfold pnums HospitalSystem.add_procedure_to_patient
  cases hf : s.find_patient id with
  | none => rfl
  | some p =>
    dsimp only
    exact updateFirst_map (matchesIdentifier id) (fun q => q.add_procedure date d)
      Patient.patient_number (fun q => rfl) s.patients

theorem gen_bills_pnums (s : HospitalSystem) (id : String) (amounts : Nat → Option ℚ) :
    pnums (s.generate_bills_from_procedures id amounts) = pnums s := by
  unfold pnums HospitalSystem.generate_bills_from_procedures
  cases hf : s.find_patient id with
  | none => rfl
  | some p =>
    dsimp only
    by_cases he : ((p.procedures.enum.filter (fun ip => !ip.2.billed)).isEmpty) = true
    · rw [if_pos he]
    · rw [if_neg he]
      exact updateFirst_map (matchesIdentifier id)
        (fun q => q.generate_bills_from_procedures amounts)
        Patient.patient_number (fun q => pn_gen_bills q amounts) s.patients

theorem mark_bill_paid_pnums (s : HospitalSystem) (id : String) (idx : Option Int) :
    pnums (s.mark_bill_paid id idx) = pnums s := by
  cases idx with
  | none =>
    unfold pnums HospitalSystem.mark_bill_paid
    cases hf : s.find_patient id with
    | none => rfl
    | some p =>
      dsimp only
      by_cases he : p.billing.isEmpty = true
      · rw [if_pos he]
      · rw [if_neg he]
  | some i =>
    unfold pnums HospitalSystem.mark_bill_paid
    cases hf : s.find_patient id with
    | none => rfl
    | some p =>
      dsimp only
      by_cases he : p.billing.isEmpty = true
      · rw [if_pos he]
      · rw [if_neg he]
        by_cases hr : (0 ≤ i ∧ i < (p.billing.length : Int))
        · rw [if_pos hr]
          exact updateFirst_map (matchesIdentifier id)
            (fun q => { q with billing := HospitalSystem.markPaidAt q.billing i.toNat })
            Patient.patient_number (fun q => rfl) s.patients
        · rw [if_neg hr]

theorem save_data_pnums (s : HospitalSystem) : pnums s.save_data = pnums s := rfl

theorem add_department_pnums (s : HospitalSystem) (name : String) :
    pnums (s.add_department name) = pnums s := by
  unfold HospitalSystem.add_department
  by_cases hd : (dictFind s.departments name).isNone = true
  · rw [if_pos hd]; rfl
  · rw [if_neg hd]

theorem add_staff_pnums (s : HospitalSystem) (dn sn : String) (age : Int)
    (pos ph dob g em ad ident : String) (spec : Option String) :
    pnums (s.add_staff_to_department dn sn age pos ph dob g em ad ident spec) = pnums s := by
  unfold HospitalSystem.add_staff_to_department
  by_cases hd : (dictFind s.departments dn).isNone = true
  · rw [if_pos hd]
    show pnums ((s.add_department dn).save_data) = pnums s
    rw [save_data_pnums, add_department_pnums]
  · rw [if_neg hd]
    rfl

theorem assign_doctor_pnums (s : HospitalSystem) (dn dr : String) (p : Patient) :
    pnums (s.assign_patient_to_doctor_in_department dn dr p) = pnums s := by
  unfold HospitalSystem.assign_patient_to_doctor_in_department
  cases hd : dictFind s.departments dn with
  | none => rfl
  | some dept =>
    dsimp only
    cases hdoc : dept.doctors.find? (fun d => d.toStaff.name == dr) with
    | none => rfl
    | some d => rfl

theorem remove_staff_pnums (s : HospitalSystem) (dn sn : String) :
    pnums (s.remove_staff_from_department dn sn) = pnums s := by
  unfold HospitalSystem.remove_staff_from_department
  cases hd : dictFind s.departments dn with
  | none => rfl
  | some dept =>
    dsimp only
    cases hst : dept.staff.find? (fun st => st.name == sn) with
    | none => rfl
    | some st => rfl

theorem remove_patient_pnums_sublist (s : HospitalSystem) (id : String) :
    (pnums (s.remove_patient id)).Sublist (pnums s) := by
  unfold pnums HospitalSystem.remove_patient
  cases hf : s.find_patient id with
  | none => exact List.Sublist.refl _
  | some p =>
    dsimp only
    exact List.Sublist.map Patient.patient_number
      (removeFirst_sublist (matchesIdentifier id) s.patients)

theorem menu_remove_patient_pnums_sublist (s : HospitalSystem) (id : String) :
    (pnums (s.menu_remove_patient id)).Sublist (pnums s) := by
  unfold HospitalSystem.menu_remove_patient
  cases hf : s.find_patient id with
  | none => exact List.Sublist.refl _
  | some p =>
    dsimp only
    by_cases hn : (p.status == "normal") = true
    · rw [if_pos hn]
      exact remove_patient_pnums_sublist s id
    · rw [if_neg hn]

theorem add_patient_nodup (s : HospitalSystem)
    (inp : HospitalSystem.NewPatientInput) (rd : String)
    (h : (pnums s).Nodup) : (pnums (s.add_patient inp rd)).Nodup := by
  unfold pnums HospitalSystem.add_patient
  by_cases h1 : (s.patients.any (fun p => p.identifier == inp.identifier)) = true
  · rw [if_pos h1]; exact h
  · rw [if_neg h1]
    by_cases h2 :
        (s.patients.any (fun p => p.patient_number == s.generate_patient_number)) = true
    · rw [if_pos h2]; exact h
    · rw [if_neg h2]
      show ((s.patients
        ++ [HospitalSystem.mkNewPatient inp s.generate_patient_number rd]).map
          Patient.patient_number).Nodup
      rw [List.map_append]
      refine List.Nodup.append h (List.nodup_singleton _) ?_
      intro a ha hb
      simp only [List.map_cons, List.map_nil, List.mem_singleton] at hb
      subst hb
      simp only [List.any_eq_true, not_exists, not_and, Bool.not_eq_true] at h2
      rcases List.mem_map.mp ha with ⟨q, hq, hqn⟩
      have := h2 q hq
      rw [beq_eq_false_iff_ne] at this
      exact this hqn

/-- One dispatched operation preserves uniqueness of patient numbers. -/
theorem step_nodup (s : HospitalSystem) (op : Op)
    (h : (pnums s).Nodup) : (pnums (step s op)).Nodup := by
  cases op with
  | addPatient inp rd => exact add_patient_nodup s inp rd h
  | assignRoom id room => rw [show step s (Op.assignRoom id room) = s.menu_assign_room id room from rfl, menu_assign_room_pnums]; exact h
  | generateBill id amount d => rw [show step s (Op.generateBill id amount d) = s.menu_generate_bill id amount d from rfl, menu_generate_bill_pnums]; exact h
  | removePatient id => exact (menu_remove_patient_pnums_sublist s id).nodup h
  | updateStatus id ns d => rw [show step s (Op.updateStatus id ns d) = s.menu_update_status id ns d from rfl, menu_update_status_pnums]; exact h
  | editPatient id inp => rw [show step s (Op.editPatient id inp) = s.edit_patient id inp from rfl, edit_patient_pnums]; exact h
  | addProcedure id date d => rw [show step s (Op.addProcedure id date d) = s.add_procedure_to_patient id date d from rfl, add_procedure_pnums]; exact h
  | genBillsFromProcedures id amounts => rw [show step s (Op.genBillsFromProcedures id amounts) = s.generate_bills_from_procedures id amounts from rfl, gen_bills_pnums]; exact h
  | markBillPaid id idx => rw [show step s (Op.markBillPaid id idx) = s.mark_bill_paid id idx from rfl, mark_bill_paid_pnums]; exact h
  | addDepartment name => rw [show step s (Op.addDepartment name) = s.add_department name from rfl, add_department_pnums]; exact h
  | addStaff dn sn age pos ph dob g em ad ident spec => rw [show step s (Op.addStaff dn sn age pos ph dob g em ad ident spec) = s.add_staff_to_department dn sn age pos ph dob g em ad ident spec from rfl, add_staff_pnums]; exact h
  | assignPatientToDoctor dn dr id =>
    show (pnums (match s.find_patient id with
      | none => s
      | some p => s.assign_patient_to_doctor_in_department dn dr p)).Nodup
    cases hf : s.find_patient id with
    | none => exact h
    | some p => rw [assign_doctor_pnums]; exact h
  | removeStaff dn sn => rw [show step s (Op.removeStaff dn sn) = s.remove_staff_from_department dn sn from rfl, remove_staff_pnums]; exact h
  | saveData => exact h

/-- Any operation sequence from a state with unique numbers keeps them
unique. -/
theorem runOps_nodup (ops : List Op) : ∀ s : HospitalSystem,
    (pnums s).Nodup → (pnums (runOps s ops)).Nodup := by
  induction ops with
  | nil => intro s h; exact h
  | cons op ops ih => intro s h; exact ih (step s op) (step_nodup s op h)

/-- `load_data` (hence `__init__`) establishes uniqueness of patient
numbers: the missing-file branch is empty and the loaded branch deduplicates
by `patient_number`. -/
theorem initState_nodup (file : Option Doc) : (pnums (initState file)).Nodup := by
  cases file with
  | none => exact List.nodup_nil
  | some d =>
    show ((dedupByNumber (d.patients.map Patient.from_dict) []).map
      Patient.patient_number).Nodup
    exact (dedupByNumber_nodup _ _).1

/-- C9: in every reachable state (any initial backing file, any sequence of
menu operations) patient numbers are pairwise distinct: `add_patient`
defensively rejects a colliding number against the in-memory registry (after
consulting the allocator, which also scans the persisted document) and
`load_data` deduplicates persisted entries by `patient_number`; every other
operation leaves the number list intact or shrinks it. -/
theorem patient_numbers_unique (file : Option Doc) (ops : List Op) :
    (runOps (initState file) ops).patients.Pairwise
      (fun p q => p.patient_number ≠ q.patient_number) := by
  have h := runOps_nodup ops (initState file) (initState_nodup file)
  unfold pnums at h
  exact List.pairwise_map.mp h
